import Mathlib

/-!
A shallow embedding of the `brili` reference interpreter for the Bril IR
(file `src/unnamed/part_000`: the memory-extended interpreter), together with
theorems settling the specification claims about it.

Conventions of the embedding:
* JavaScript `bigint` values are `Int` (arbitrary precision in both).
* The mutable `Env` (a JS `Map`) is an association list threaded through
  every operation; `Map.set` is a functional overwrite-or-append update.
* The mutable `Heap` (class `Heap` from `./heap`, not part of the sources)
  is modelled from the spec and threaded likewise.
* Every `throw` site of the source becomes a distinct constructor of `Err`;
  `isBriliError` records which throw sites produce `BriliError` instances
  (the only exceptions the driver catches and reports — all other thrown
  values are re-thrown and crash the process as an engine-level failure).
* The unbounded interpreter loop is driven by an explicit fuel parameter;
  exhaustion yields the artificial error `Err.outOfFuel`, which corresponds
  to no behaviour of the source and appears in no theorem's conclusion.
-/

namespace Brili

set_option maxRecDepth 4096

/-- The three primitive runtime element types tracked by the interpreter:
the possible values of a `Pointer`'s `type` field after `alloc` collapses
deep pointee types (`dataType` in the source's `alloc`). -/
inductive PrimType where
  | int
  | bool
  | ptr
  deriving DecidableEq

/-- `bril.Type` as the interpreter sees it: either one of the three type
strings or a `PointerType` object `\x7b ptr: Type \x7d` (nesting allowed). -/
inductive BrilType where
  | int
  | bool
  | ptr
  | pointer (pointee : BrilType)
  deriving DecidableEq

/-- The table `brilTypeToDynamicType`: indexing a JS object by a key that is
not one of the three type strings yields `undefined`, modelled as `none`. -/
def dynOf : BrilType → Option String
  | .int => some "bigint"
  | .bool => some "boolean"
  | .ptr => some "object"
  | .pointer _ => none

/-- Modelled from the spec: the class `Key` of the missing heap module
(`./heap`) — an opaque heap address made of an allocation identifier and an
offset within that allocation. -/
structure Key where
  base : Nat
  off : Int
  deriving DecidableEq

/-- Modelled from the spec: `Key.add(n)` of the missing heap module shifts
the offset with no bounds validation at creation time. -/
def Key.add (k : Key) (n : Int) : Key :=
  { k with off := k.off + n }

/-- The source's fat-pointer record `Pointer = \x7b loc: Key; type: bril.Type \x7d`
(after `alloc`, `type` is always one of the three primitive types). -/
structure Pointer where
  loc : Key
  type : PrimType
  deriving DecidableEq

/-- The source's `Value = boolean | Pointer | BigInt`. -/
inductive Value where
  | int (n : Int)
  | bool (b : Bool)
  | ptr (p : Pointer)
  deriving DecidableEq

/-- JS `typeof` on a runtime `Value` (bigints are primitives, pointers are
objects). -/
def typeofVal : Value → String
  | .int _ => "bigint"
  | .bool _ => "boolean"
  | .ptr _ => "object"

/-- JS stringification as used by `print`: bigints print in decimal,
booleans as `true`/`false`, and a `Pointer` object stringifies to the
default `[object Object]`. -/
def valueToString : Value → String
  | .int n => toString n
  | .bool b => if b then "true" else "false"
  | .ptr _ => "[object Object]"

/-- The environment `Env = Map<bril.Ident, Value>`, modelled as an
association list. -/
def Env := List (String × Value)
  deriving DecidableEq

/-- `Map.get`: the value bound to an identifier, if any. -/
def envGet (env : Env) (x : String) : Option Value :=
  match env with
  | [] => none
  | (y, v) :: rest => if y = x then some v else envGet rest x

/-- `Map.set`: overwrite the binding for an identifier (or append a new
binding), leaving all other bindings unchanged. -/
def envSet (env : Env) (x : String) (v : Value) : Env :=
  match env with
  | [] => [(x, v)]
  | (y, w) :: rest => if y = x then (x, v) :: rest else (y, w) :: envSet rest x v

/-- One constructor per `throw` site of the source (plus the heap module's
spec-modelled failures and the artificial `outOfFuel`). -/
inductive Err where
  | outOfFuel
  | undefinedVariable (x : String)
  | noFunc (name : String)
  | multiFunc (name : String)
  | badAllocType
  | allocNonPositive (amt : Int)
  | wrongArgCount (op : String) (want got : Nat)
  | argTypeMismatch (op : String) (index : Nat)
  | notAPointer (op : String) (index : Nat)
  | callArityMismatch (want got : Nat)
  | callArgTypeMismatch
  | unexpectedReturnValue
  | nonVoidNoReturn
  | callMissingType
  | callMissingDest
  | returnValueTypeMismatch
  | returnDeclMismatch
  | retWrongArgCount (got : Nat)
  | uninitializedPointer (x : String)
  | divideByZero
  | labelNotFound (l : String)
  | badBoolArg (s : String)
  | mainArityMismatch (want got : Nat)
  | leak
  | invalidFree
  | invalidAccess
  | uninitializedRead
  | bigIntRangeError
  deriving DecidableEq

/-- Which raised errors are `BriliError` instances. The driver's `main`
catches exactly these (printing `Brili interpreter error:` and exiting with
code 2); every other thrown value — bare string throws such as the ones in
`alloc`, `getPtr`, the leak check, and host exceptions such as the
`RangeError` from bigint division by zero — is re-thrown and crashes the
process like an engine defect. -/
def isBriliError : Err → Bool
  | .undefinedVariable _ => true
  | .noFunc _ => true
  | .multiFunc _ => true
  | .wrongArgCount _ _ _ => true
  | .argTypeMismatch _ _ => true
  | .callArityMismatch _ _ => true
  | .callArgTypeMismatch => true
  | .unexpectedReturnValue => true
  | .nonVoidNoReturn => true
  | .callMissingType => true
  | .callMissingDest => true
  | .returnValueTypeMismatch => true
  | .returnDeclMismatch => true
  | .retWrongArgCount _ => true
  | .labelNotFound _ => true
  | .badBoolArg _ => true
  | .mainArityMismatch _ _ => true
  | _ => false

/-- The source's `get`: resolve an identifier in the environment, raising
`undefined variable` when absent. -/
def get (env : Env) (x : String) : Except Err Value :=
  match envGet env x with
  | some v => .ok v
  | none => .error (.undefinedVariable x)

/-- Modelled from the spec: the state of the missing heap module — the
currently live blocks (allocation identifier paired with its slots, a slot
being `none` until first written) plus a counter of never-issued
identifiers, so freed identifiers are never reused and stale keys are
detected. -/
structure Heap where
  blocks : List (Nat × List (Option Value))
  fresh : Nat
  deriving DecidableEq

/-- The empty heap the driver starts from. -/
def Heap.empty : Heap := { blocks := [], fresh := 0 }

/-- The slots of the live block with the given allocation identifier. -/
def findBlock (blocks : List (Nat × List (Option Value))) (b : Nat) :
    Option (List (Option Value)) :=
  match blocks with
  | [] => none
  | (b', slots) :: rest => if b' = b then some slots else findBlock rest b

/-- Modelled from the spec: `Heap.alloc(amt)` of the missing heap module —
create a fresh block of `amt` uninitialized slots under a never-before
issued identifier and return the key at offset 0. -/
def heapAlloc (h : Heap) (amt : Nat) : Key × Heap :=
  ({ base := h.fresh, off := 0 },
   { blocks := h.blocks ++ [(h.fresh, List.replicate amt none)], fresh := h.fresh + 1 })

/-- Modelled from the spec: `Heap.free(key)` of the missing heap module —
fails unless the key refers to a live block at its base offset; on success
the whole block is released. -/
def heapFree (h : Heap) (k : Key) : Except Err Heap :=
  match findBlock h.blocks k.base with
  | none => .error .invalidFree
  | some _ =>
    if k.off = 0 then
      .ok { h with blocks := h.blocks.filter (fun b => b.1 ≠ k.base) }
    else .error .invalidFree

/-- Modelled from the spec: `Heap.read(key)` of the missing heap module —
liveness and bounds are checked, and a never-written slot fails. -/
def heapRead (h : Heap) (k : Key) : Except Err Value :=
  match findBlock h.blocks k.base with
  | none => .error .invalidAccess
  | some slots =>
    if 0 ≤ k.off ∧ k.off < (slots.length : Int) then
      match slots.getD k.off.toNat none with
      | some v => .ok v
      | none => .error .uninitializedRead
    else .error .invalidAccess

/-- Replace the slots of the block with the given identifier, leaving every
other block unchanged. -/
def updateBlock (blocks : List (Nat × List (Option Value))) (b : Nat)
    (g : List (Option Value) → List (Option Value)) :
    List (Nat × List (Option Value)) :=
  match blocks with
  | [] => []
  | (b', slots) :: rest =>
    if b' = b then (b', g slots) :: updateBlock rest b g
    else (b', slots) :: updateBlock rest b g

/-- Modelled from the spec: `Heap.write(key, value)` of the missing heap
module — same liveness and bounds checks as `read`, then the slot is
overwritten unconditionally (no type check at this layer). -/
def heapWrite (h : Heap) (k : Key) (v : Value) : Except Err Heap :=
  match findBlock h.blocks k.base with
  | none => .error .invalidAccess
  | some slots =>
    if 0 ≤ k.off ∧ k.off < (slots.length : Int) then
      .ok { h with blocks :=
              updateBlock h.blocks k.base (fun s => s.set k.off.toNat (some v)) }
    else .error .invalidAccess

/-- Modelled from the spec: `Heap.isEmpty()` of the missing heap module —
true iff no blocks are currently live. -/
def heapIsEmpty (h : Heap) : Bool :=
  h.blocks.isEmpty

/-- The embedded literal of a `const` instruction: a JSON number or
boolean. -/
inductive Lit where
  | num (n : Int)
  | bool (b : Bool)
  deriving DecidableEq

/-- The `const` case of `evalInstr`: a JSON number literal is widened to a
bigint (`BigInt(instr.value)`); a boolean is taken as is. -/
def constValue : Lit → Value
  | .num n => .int n
  | .bool b => .bool b

/-- The closed instruction set (`bril.Instruction`), one constructor per
opcode, each carrying exactly the fields that opcode reads. -/
inductive Instr where
  | const (dest : String) (value : Lit)
  | id (dest : String) (args : List String)
  | add (dest : String) (args : List String)
  | mul (dest : String) (args : List String)
  | sub (dest : String) (args : List String)
  | div (dest : String) (args : List String)
  | le (dest : String) (args : List String)
  | lt (dest : String) (args : List String)
  | gt (dest : String) (args : List String)
  | ge (dest : String) (args : List String)
  | eq (dest : String) (args : List String)
  | not (dest : String) (args : List String)
  | and (dest : String) (args : List String)
  | or (dest : String) (args : List String)
  | print (args : List String)
  | jmp (args : List String)
  | br (args : List String)
  | ret (args : List String)
  | nop (args : List String)
  | call (name : String) (args : List String) (dest : Option String) (type : Option BrilType)
  | alloc (dest : String) (args : List String) (type : BrilType)
  | free (args : List String)
  | store (args : List String)
  | load (dest : String) (args : List String)
  | ptradd (dest : String) (args : List String)
  deriving DecidableEq

/-- The `instr.op` string, as used in error messages. -/
def opName : Instr → String
  | .const _ _ => "const"
  | .id _ _ => "id"
  | .add _ _ => "add"
  | .mul _ _ => "mul"
  | .sub _ _ => "sub"
  | .div _ _ => "div"
  | .le _ _ => "le"
  | .lt _ _ => "lt"
  | .gt _ _ => "gt"
  | .ge _ _ => "ge"
  | .eq _ _ => "eq"
  | .not _ _ => "not"
  | .and _ _ => "and"
  | .or _ _ => "or"
  | .print _ => "print"
  | .jmp _ => "jmp"
  | .br _ => "br"
  | .ret _ => "ret"
  | .nop _ => "nop"
  | .call _ _ _ _ => "call"
  | .alloc _ _ _ => "alloc"
  | .free _ => "free"
  | .store _ => "store"
  | .load _ _ => "load"
  | .ptradd _ _ => "ptradd"

/-- The `instr.args` list (a `const` carries none). -/
def instrArgs : Instr → List String
  | .const _ _ => []
  | .id _ a => a
  | .add _ a => a
  | .mul _ a => a
  | .sub _ a => a
  | .div _ a => a
  | .le _ a => a
  | .lt _ a => a
  | .gt _ a => a
  | .ge _ a => a
  | .eq _ a => a
  | .not _ a => a
  | .and _ a => a
  | .or _ a => a
  | .print a => a
  | .jmp a => a
  | .br a => a
  | .ret a => a
  | .nop a => a
  | .call _ a _ _ => a
  | .alloc _ a _ => a
  | .free a => a
  | .store a => a
  | .load _ a => a
  | .ptradd _ a => a

/-- The `argCounts` table: the required argument count per opcode, `none`
(the table's `null`) for the variable-arity opcodes. (`const` has no table
entry; it is never consulted for it.) -/
def argCount : Instr → Option Nat
  | .const _ _ => none
  | .id _ _ => some 1
  | .add _ _ => some 2
  | .mul _ _ => some 2
  | .sub _ _ => some 2
  | .div _ _ => some 2
  | .le _ _ => some 2
  | .lt _ _ => some 2
  | .gt _ _ => some 2
  | .ge _ _ => some 2
  | .eq _ _ => some 2
  | .not _ _ => some 1
  | .and _ _ => some 2
  | .or _ _ => some 2
  | .print _ => none
  | .jmp _ => some 1
  | .br _ => some 3
  | .ret _ => none
  | .nop _ => some 0
  | .call _ _ _ _ => none
  | .alloc _ _ _ => some 1
  | .free _ => some 1
  | .store _ => some 2
  | .load _ _ => some 1
  | .ptradd _ _ => some 2

/-- The source's `checkArgs` plus the guard at the top of `evalInstr`: for
every opcode except `const`, if the table prescribes a count, the
instruction must carry exactly that many arguments. -/
def arityCheck (i : Instr) : Except Err Unit :=
  match i with
  | .const _ _ => .ok ()
  | _ =>
    match argCount i with
    | none => .ok ()
    | some c =>
      if (instrArgs i).length = c then .ok ()
      else .error (.wrongArgCount (opName i) c (instrArgs i).length)

/-- `instr.args[index]`: out-of-range JS indexing yields `undefined`, whose
later lookup in the environment reads as the identifier `undefined`.
(Unreachable for fixed-arity opcodes, whose count is checked first.) -/
def argAt (args : List String) (i : Nat) : String :=
  args.getD i "undefined"

/-- The source's `getArgument`: resolve the argument identifier and compare
the declared type's dynamic-type string against `typeof` of the value. -/
def getArgument (op : String) (args : List String) (env : Env) (i : Nat)
    (t : BrilType) : Except Err Value :=
  match get env (argAt args i) with
  | .error e => .error e
  | .ok v =>
    if dynOf t = some (typeofVal v) then .ok v
    else .error (.argTypeMismatch op i)

/-- The source's `getInt` (`getArgument ... 'int' as bigint`; the non-int
fallback is unreachable because `getArgument` has checked the tag). -/
def getInt (op : String) (args : List String) (env : Env) (i : Nat) :
    Except Err Int :=
  match getArgument op args env i .int with
  | .error e => .error e
  | .ok (.int n) => .ok n
  | .ok _ => .error (.argTypeMismatch op i)

/-- The source's `getBool` (`getArgument ... 'bool' as boolean`). -/
def getBool (op : String) (args : List String) (env : Env) (i : Nat) :
    Except Err Bool :=
  match getArgument op args env i .bool with
  | .error e => .error e
  | .ok (.bool b) => .ok b
  | .ok _ => .error (.argTypeMismatch op i)

/-- The source's `getPtr`: the value must be an object that is a `Pointer`
(bigint and boolean primitives are not); the throw here is a bare string,
not a `BriliError`. -/
def getPtr (op : String) (args : List String) (env : Env) (i : Nat) :
    Except Err Pointer :=
  match get env (argAt args i) with
  | .error e => .error e
  | .ok (.ptr p) => .ok p
  | .ok _ => .error (.notAPointer op i)

/-- The source's standalone `alloc` helper: the declared type must be a
`PointerType` object (else a bare-string throw), the amount must be
positive (else a bare-string throw), and a deep pointee type collapses to
the generic `ptr` element type. -/
def collapseType : BrilType → PrimType
  | .int => .int
  | .bool => .bool
  | _ => .ptr

/-- The source's `alloc(ptrType, amt, heap)`. (The source converts the
bigint amount via `Number(amt)`, exact on any amount a real heap could
hold; the embedding keeps the integer.) -/
def allocFn (ptrType : BrilType) (amt : Int) (heap : Heap) :
    Except Err (Pointer × Heap) :=
  match ptrType with
  | .pointer dataType =>
    if amt ≤ 0 then .error (.allocNonPositive amt)
    else
      let kh := heapAlloc heap amt.toNat
      .ok ({ loc := kh.1, type := collapseType dataType }, kh.2)
  | _ => .error .badAllocType

/-- One entry of a function body: a label line or an instruction line. -/
inductive Line where
  | label (l : String)
  | instr (i : Instr)
  deriving DecidableEq

/-- A declared function parameter (`bril.Argument`). -/
structure Arg where
  name : String
  type : BrilType
  deriving DecidableEq

/-- A `bril.Function`: name, parameters, optional declared return type, and
the flat instruction/label list. -/
structure Func where
  name : String
  args : List Arg
  type : Option BrilType
  instrs : List Line
  deriving DecidableEq

/-- A `bril.Program`: the flat function table. -/
structure Program where
  functions : List Func
  deriving DecidableEq

/-- The source's `findFunc`: filter the table by exact name; zero matches
and multiple matches both throw (`BriliError`), otherwise the unique match
is returned — the function can never be `null`. -/
def findFunc (name : String) (funcs : List Func) : Except Err Func :=
  match funcs.filter (fun f => f.name = name) with
  | [] => .error (.noFunc name)
  | [f] => .ok f
  | _ => .error (.multiFunc name)

/-- The `Action` returned by `evalInstr`: fall through, jump to a label, or
end the function with an optional return value. -/
inductive Action where
  | next
  | label (l : String)
  | ret (rv : Option Value)
  deriving DecidableEq

/-- The argument-binding loop of `evalCall`: resolve each call-site
identifier in the caller's environment, check its dynamic type against the
callee's declared parameter type, and bind it under the parameter's name in
the fresh environment. (The clause for exhausted call-site arguments is
unreachable after the arity check; JS would look up the identifier
`undefined`.) -/
def bindArgs : List Arg → List String → Env → Env → Except Err Env
  | [], _, _, acc => .ok acc
  | p :: ps, a :: rest, env, acc =>
    match get env a with
    | .error e => .error e
    | .ok v =>
      if dynOf p.type = some (typeofVal v) then
        bindArgs ps rest env (envSet acc p.name v)
      else .error .callArgTypeMismatch
  | _ :: _, [], _, _ => .error (.undefinedVariable "undefined")

/-- The shape of the recursive entry into the function interpreter that a
call instruction performs (`evalFuncInEnv` in the source): it receives the
callee, the function table, the fresh environment, and the shared heap, and
yields the return value, the heap afterwards, and the printed lines. -/
def RunFn :=
  Func → List Func → Env → Heap → Except Err (Option Value × Heap × List String)

/-- The source's `evalCall`, parameterized by the recursive entry into the
function interpreter (the fuelled `evalCall` below instantiates it). The
`func === null` check of the source is dead code — `findFunc` throws
instead of returning `null` — and is therefore not represented. -/
def evalCallCore (recur : RunFn) (name : String) (cargs : List String)
    (dest : Option String) (ty : Option BrilType) (env : Env)
    (funcs : List Func) (heap : Heap) :
    Except Err (Action × Env × Heap × List String) :=
  match findFunc name funcs with
  | .error e => .error e
  | .ok func =>
    if func.args.length ≠ cargs.length then
      .error (.callArityMismatch func.args.length cargs.length)
    else
      match bindArgs func.args cargs env [] with
      | .error e => .error e
      | .ok newEnv =>
        match recur func funcs newEnv heap with
        | .error e => .error e
        | .ok (retVal, heap', out) =>
          match dest, ty with
          | none, none =>
            match retVal with
            | some _ => .error .unexpectedReturnValue
            | none =>
              match func.type with
              | some _ => .error .nonVoidNoReturn
              | none => .ok (.next, env, heap', out)
          | d?, t? =>
            match t? with
            | none => .error .callMissingType
            | some t =>
              match d? with
              | none => .error .callMissingDest
              | some d =>
                match retVal with
                | none => .error .nonVoidNoReturn
                | some v =>
                  if dynOf t ≠ some (typeofVal v) then
                    .error .returnValueTypeMismatch
                  else if func.type ≠ some t then
                    .error .returnDeclMismatch
                  else .ok (.next, envSet env d v, heap', out)

/-- The source's `evalInstr`, parameterized by the recursive entry used by
`call`. The mutable environment and heap are threaded explicitly and the
lines printed by the instruction are collected. -/
def evalInstrCore (recur : RunFn) (instr : Instr) (env : Env)
    (funcs : List Func) (heap : Heap) :
    Except Err (Action × Env × Heap × List String) :=
  match arityCheck instr with
  | .error e => .error e
  | .ok _ =>
    match instr with
    | .const dest v => .ok (.next, envSet env dest (constValue v), heap, [])
    | .id dest args =>
      match get env (argAt args 0) with
      | .error e => .error e
      | .ok v => .ok (.next, envSet env dest v, heap, [])
    | .add dest args =>
      match getInt "add" args env 0 with
      | .error e => .error e
      | .ok a =>
        match getInt "add" args env 1 with
        | .error e => .error e
        | .ok b => .ok (.next, envSet env dest (.int (a + b)), heap, [])
    | .mul dest args =>
      match getInt "mul" args env 0 with
      | .error e => .error e
      | .ok a =>
        match getInt "mul" args env 1 with
        | .error e => .error e
        | .ok b => .ok (.next, envSet env dest (.int (a * b)), heap, [])
    | .sub dest args =>
      match getInt "sub" args env 0 with
      | .error e => .error e
      | .ok a =>
        match getInt "sub" args env 1 with
        | .error e => .error e
        | .ok b => .ok (.next, envSet env dest (.int (a - b)), heap, [])
    | .div dest args =>
      match getInt "div" args env 0 with
      | .error e => .error e
      | .ok a =>
        match getInt "div" args env 1 with
        | .error e => .error e
        | .ok b =>
          -- JS bigint division truncates toward zero and throws a host
          -- RangeError (not a BriliError) on a zero divisor.
          if b = 0 then .error .divideByZero
          else .ok (.next, envSet env dest (.int (Int.tdiv a b)), heap, [])
    | .le dest args =>
      match getInt "le" args env 0 with
      | .error e => .error e
      | .ok a =>
        match getInt "le" args env 1 with
        | .error e => .error e
        | .ok b => .ok (.next, envSet env dest (.bool (a ≤ b)), heap, [])
    | .lt dest args =>
      match getInt "lt" args env 0 with
      | .error e => .error e
      | .ok a =>
        match getInt "lt" args env 1 with
        | .error e => .error e
        | .ok b => .ok (.next, envSet env dest (.bool (a < b)), heap, [])
    | .gt dest args =>
      match getInt "gt" args env 0 with
      | .error e => .error e
      | .ok a =>
        match getInt "gt" args env 1 with
        | .error e => .error e
        | .ok b => .ok (.next, envSet env dest (.bool (b < a)), heap, [])
    | .ge dest args =>
      match getInt "ge" args env 0 with
      | .error e => .error e
      | .ok a =>
        match getInt "ge" args env 1 with
        | .error e => .error e
        | .ok b => .ok (.next, envSet env dest (.bool (b ≤ a)), heap, [])
    | .eq dest args =>
      match getInt "eq" args env 0 with
      | .error e => .error e
      | .ok a =>
        match getInt "eq" args env 1 with
        | .error e => .error e
        | .ok b => .ok (.next, envSet env dest (.bool (a = b)), heap, [])
    | .not dest args =>
      match getBool "not" args env 0 with
      | .error e => .error e
      | .ok b => .ok (.next, envSet env dest (.bool (!b)), heap, [])
    | .and dest args =>
      -- `getBool(0) && getBool(1)`: JS `&&` short-circuits, so the second
      -- operand is resolved and type-checked only when the first is true.
      match getBool "and" args env 0 with
      | .error e => .error e
      | .ok b0 =>
        if b0 then
          match getBool "and" args env 1 with
          | .error e => .error e
          | .ok b1 => .ok (.next, envSet env dest (.bool b1), heap, [])
        else .ok (.next, envSet env dest (.bool false), heap, [])
    | .or dest args =>
      -- `getBool(0) || getBool(1)`: JS `||` short-circuits, so the second
      -- operand is resolved and type-checked only when the first is false.
      match getBool "or" args env 0 with
      | .error e => .error e
      | .ok b0 =>
        if b0 then .ok (.next, envSet env dest (.bool true), heap, [])
        else
          match getBool "or" args env 1 with
          | .error e => .error e
          | .ok b1 => .ok (.next, envSet env dest (.bool b1), heap, [])
    | .print args =>
      match args.mapM (fun x =>
          match get env x with
          | .error e => Except.error e
          | .ok v => Except.ok (valueToString v)) with
      | .error e => .error e
      | .ok values => .ok (.next, env, heap, [" ".intercalate values])
    | .jmp args => .ok (.label (argAt args 0), env, heap, [])
    | .br args =>
      match getBool "br" args env 0 with
      | .error e => .error e
      | .ok cond =>
        if cond then .ok (.label (argAt args 1), env, heap, [])
        else .ok (.label (argAt args 2), env, heap, [])
    | .ret args =>
      match args with
      | [] => .ok (.ret none, env, heap, [])
      | [x] =>
        match get env x with
        | .error e => .error e
        | .ok v => .ok (.ret (some v), env, heap, [])
      | _ => .error (.retWrongArgCount args.length)
    | .nop _ => .ok (.next, env, heap, [])
    | .call name args dest ty => evalCallCore recur name args dest ty env funcs heap
    | .alloc dest args ty =>
      match getInt "alloc" args env 0 with
      | .error e => .error e
      | .ok amt =>
        match allocFn ty amt heap with
        | .error e => .error e
        | .ok (ptr, heap') => .ok (.next, envSet env dest (.ptr ptr), heap', [])
    | .free args =>
      match getPtr "free" args env 0 with
      | .error e => .error e
      | .ok p =>
        match heapFree heap p.loc with
        | .error e => .error e
        | .ok heap' => .ok (.next, env, heap', [])
    | .store args =>
      match getPtr "store" args env 0 with
      | .error e => .error e
      | .ok target =>
        match target.type with
        | .int =>
          match getInt "store" args env 1 with
          | .error e => .error e
          | .ok n =>
            match heapWrite heap target.loc (.int n) with
            | .error e => .error e
            | .ok heap' => .ok (.next, env, heap', [])
        | .bool =>
          match getBool "store" args env 1 with
          | .error e => .error e
          | .ok b =>
            match heapWrite heap target.loc (.bool b) with
            | .error e => .error e
            | .ok heap' => .ok (.next, env, heap', [])
        | .ptr =>
          match getPtr "store" args env 1 with
          | .error e => .error e
          | .ok q =>
            match heapWrite heap target.loc (.ptr q) with
            | .error e => .error e
            | .ok heap' => .ok (.next, env, heap', [])
    | .load dest args =>
      match getPtr "load" args env 0 with
      | .error e => .error e
      | .ok p =>
        -- With the spec-modelled heap, `read` itself fails on a
        -- never-written slot, so the source's follow-up `undefined` check
        -- cannot fire.
        match heapRead heap p.loc with
        | .error e => .error e
        | .ok v => .ok (.next, envSet env dest v, heap, [])
    | .ptradd dest args =>
      match getPtr "ptradd" args env 0 with
      | .error e => .error e
      | .ok p =>
        match getInt "ptradd" args env 1 with
        | .error e => .error e
        | .ok n =>
          .ok (.next, envSet env dest (.ptr { loc := p.loc.add n, type := p.type }), heap, [])

/-- The label search of `evalFuncInEnv`: scan the instruction list from the
start for the first line tagged with the label. -/
def findLabel : List Line → String → Option Nat
  | [], _ => none
  | .label l' :: rest, l =>
    if l' = l then some 0 else (findLabel rest l).map (· + 1)
  | .instr _ :: rest, l => (findLabel rest l).map (· + 1)

/-- Prepend already-printed lines to the outcome of the rest of a run. -/
def withOut (out : List String) :
    Except Err (Option Value × Heap × List String) →
    Except Err (Option Value × Heap × List String)
  | .error e => .error e
  | .ok (rv, h, out') => .ok (rv, h, out ++ out')

/-- The loop of the source's `evalFuncInEnv`, with the program counter
explicit and a fuel parameter making the possibly-diverging loop total:
label lines are skipped, a `label` action moves the counter to just after
the first line carrying that label (failing when no line does), a `ret`
action ends the function, and running off the end is an implicit return of
no value. Each call instruction re-enters this interpreter at the callee's
first instruction with one unit of fuel less. -/
def evalFuncAt : Nat → Func → List Func → Nat → Env → Heap →
    Except Err (Option Value × Heap × List String)
  | 0, _, _, _, _, _ => .error .outOfFuel
  | fuel + 1, func, funcs, pc, env, heap =>
    match func.instrs.get? pc with
    | none => .ok (none, heap, [])
    | some (.label _) => evalFuncAt fuel func funcs (pc + 1) env heap
    | some (.instr i) =>
      match evalInstrCore (fun g gs e h => evalFuncAt fuel g gs 0 e h) i env funcs heap with
      | .error e => .error e
      | .ok (act, env', heap', out) =>
        match act with
        | .next => withOut out (evalFuncAt fuel func funcs (pc + 1) env' heap')
        | .label l =>
          match findLabel func.instrs l with
          | some j => withOut out (evalFuncAt fuel func funcs (j + 1) env' heap')
          | none => .error (.labelNotFound l)
        | .ret rv => .ok (rv, heap', out)

/-- The source's `evalInstr` at a given fuel level. -/
def evalInstr (fuel : Nat) : Instr → Env → List Func → Heap →
    Except Err (Action × Env × Heap × List String) :=
  evalInstrCore (fun g gs e h => evalFuncAt fuel g gs 0 e h)

/-- The source's `evalCall` at a given fuel level. -/
def evalCall (fuel : Nat) : String → List String → Option String →
    Option BrilType → Env → List Func → Heap →
    Except Err (Action × Env × Heap × List String) :=
  evalCallCore (fun g gs e h => evalFuncAt fuel g gs 0 e h)

/-- The source's `evalFuncInEnv`: run a function from its first line. -/
def evalFuncInEnv (fuel : Nat) (func : Func) (funcs : List Func) (env : Env)
    (heap : Heap) : Except Err (Option Value × Heap × List String) :=
  evalFuncAt fuel func funcs 0 env heap

/-- The source's `parseBool`: exactly the literal strings are accepted;
anything else throws a `BriliError`. -/
def parseBool (s : String) : Except Err Bool :=
  if s = "true" then .ok true
  else if s = "false" then .ok false
  else .error (.badBoolArg s)

/-- A whitespace character skipped by the host's `parseInt`. -/
def isWs (c : Char) : Bool :=
  c = ' ' || c = '\t' || c = '\n' || c = '\r'

/-- A hexadecimal digit, as accepted by `parseInt` after a `0x` prefix. -/
def isHexDigit (c : Char) : Bool :=
  c.isDigit || ('a' ≤ c && c ≤ 'f') || ('A' ≤ c && c ≤ 'F')

/-- The numeric value of a hexadecimal digit. -/
def hexVal (c : Char) : Nat :=
  if c.isDigit then c.toNat - '0'.toNat
  else if 'a' ≤ c then c.toNat - 'a'.toNat + 10
  else c.toNat - 'A'.toNat + 10

/-- The value of a digit list read positionally in the given base. -/
def digitsVal (base : Nat) (val : Char → Nat) (ds : List Char) : Nat :=
  ds.foldl (fun a c => base * a + val c) 0

/-- The optional sign accepted by the host's `parseInt`. -/
def jsParseIntSign : List Char → Bool × List Char
  | [] => (false, [])
  | c :: r =>
    if c = '-' then (true, r)
    else if c = '+' then (false, r)
    else (false, c :: r)

/-- The `0x`/`0X` prefix special case of the host's `parseInt`. -/
def jsParseIntHex : List Char → Option (List Char)
  | c :: d :: r => if c = '0' ∧ (d = 'x' ∨ d = 'X') then some r else none
  | _ => none

/-- The floor of the base-2 logarithm, written with an explicit fuel bound
(any fuel at least the number itself works) so that it evaluates by
reduction. -/
def log2floor (fuel n : Nat) : Nat :=
  match fuel with
  | 0 => 0
  | f + 1 => if 2 ≤ n then log2floor f (n / 2) + 1 else 0

/-- The host's `parseInt` returns an IEEE 754 double, not an exact integer:
a magnitude above 2^53 is rounded to the nearest representable double
(ties to even), and a magnitude at or above the double overflow threshold
becomes Infinity (`none` here), on which the subsequent `BigInt`
conversion throws. Magnitudes up to 2^53 are exact. -/
def roundToDouble (n : Nat) : Option Nat :=
  if n ≤ 2 ^ 53 then some n
  else
    let e := log2floor n n
    let ulp := 2 ^ (e - 52)
    let q := n / ulp
    let r := n % ulp
    let q' := if r * 2 < ulp then q
              else if ulp < r * 2 then q + 1
              else if q % 2 = 0 then q else q + 1
    let m := q' * ulp
    if m < 2 ^ 1024 then some m else none

/-- Take the longest digit prefix in the given base and return its value as
the integral double `parseInt` produces; the empty prefix means `NaN`, and
an overflow to Infinity also yields `none` (both make `BigInt` throw). -/
def parseDigits (isD : Char → Bool) (base : Nat) (val : Char → Nat)
    (neg : Bool) (cs : List Char) : Option Int :=
  let ds := cs.takeWhile isD
  if ds.isEmpty then none
  else
    match roundToDouble (digitsVal base val ds) with
    | none => none
    | some m => some (if neg then -(m : Int) else (m : Int))

/-- The host's `parseInt(s)` with no radix argument, as the source calls it
for integer arguments to `main`: skip leading whitespace, accept an
optional sign, treat a `0x` prefix as hexadecimal, otherwise read the
longest decimal digit prefix and return it as a double; `none` is `NaN` or
Infinity. -/
def jsParseInt (s : String) : Option Int :=
  let cs0 := s.data.dropWhile isWs
  let signed := jsParseIntSign cs0
  match jsParseIntHex signed.2 with
  | some r => parseDigits isHexDigit 16 hexVal signed.1 r
  | none => parseDigits Char.isDigit 10 (fun c => c.toNat - '0'.toNat) signed.1 signed.2

/-- The binding loop of `parseMainArguments`: an `int` parameter goes
through `BigInt(parseInt(s))` — `BigInt` throws a host `RangeError` when
`parseInt` returned `NaN` or Infinity —, a `bool` parameter through
`parseBool`, and the source's `switch` has no case for any other declared
type, leaving such a parameter unbound. (The clause for exhausted strings
is unreachable after the arity check.) -/
def parseMainLoop : List Arg → List String → Env → Except Err Env
  | [], _, acc => .ok acc
  | p :: ps, s :: ss, acc =>
    match p.type with
    | .int =>
      match jsParseInt s with
      | none => .error .bigIntRangeError
      | some n => parseMainLoop ps ss (envSet acc p.name (.int n))
    | .bool =>
      match parseBool s with
      | .error e => .error e
      | .ok b => parseMainLoop ps ss (envSet acc p.name (.bool b))
    | _ => parseMainLoop ps ss acc
  | _ :: _, [], acc => .ok acc

/-- The source's `parseMainArguments`: the string list must match the
declared parameter list in length, then each parameter is bound by the
per-type coercion. -/
def parseMainArguments (expected : List Arg) (args : List String) :
    Except Err Env :=
  if args.length ≠ expected.length then
    .error (.mainArityMismatch expected.length args.length)
  else parseMainLoop expected args []

/-- The source's `evalProg`: resolve `main` (the `main === null` warning
branch is unreachable because `findFunc` throws instead of returning
`null`), bind its parameters from the external string arguments, run it on
a fresh heap, and finally fail when live blocks remain (a bare-string
throw). On success the printed lines are returned. -/
def evalProg (fuel : Nat) (prog : Program) (argv : List String) :
    Except Err (List String) :=
  match findFunc "main" prog.functions with
  | .error e => .error e
  | .ok main =>
    match parseMainArguments main.args argv with
    | .error e => .error e
    | .ok newEnv =>
      match evalFuncInEnv fuel main prog.functions newEnv Heap.empty with
      | .error e => .error e
      | .ok (_, heap', out) =>
        if heapIsEmpty heap' then .ok out else .error .leak

/-! Helper lemmas. -/

/-- A successful label search returns the index of the first line carrying
the label: that line does carry it and no earlier line does. -/
lemma findLabel_first (lines : List Line) (l : String) :
    ∀ j, findLabel lines l = some j →
      lines.get? j = some (.label l) ∧ ∀ k, k < j → lines.get? k ≠ some (.label l) := by
  induction lines with
  | nil => intro j h; simp [findLabel] at h
  | cons line rest ih =>
    intro j h
    cases line with
    | label l' =>
      by_cases hl : l' = l
      · subst hl
        simp [findLabel] at h
        subst h
        exact ⟨rfl, fun k hk => absurd hk (Nat.not_lt_zero k)⟩
      · simp [findLabel, hl, Option.map_eq_some'] at h
        obtain ⟨j', hj', rfl⟩ := h
        obtain ⟨h1, h2⟩ := ih j' hj'
        refine ⟨h1, fun k hk => ?_⟩
        cases k with
        | zero => simp [Line.label.injEq]; intro he; exact hl he
        | succ k' => exact h2 k' (Nat.lt_of_succ_lt_succ hk)
    | instr i =>
      simp [findLabel, Option.map_eq_some'] at h
      obtain ⟨j', hj', rfl⟩ := h
      obtain ⟨h1, h2⟩ := ih j' hj'
      refine ⟨h1, fun k hk => ?_⟩
      cases k with
      | zero => simp
      | succ k' => exact h2 k' (Nat.lt_of_succ_lt_succ hk)

/-- A failed label search means no line carries the label. -/
lemma findLabel_not_found (lines : List Line) (l : String)
    (h : findLabel lines l = none) : ∀ k, lines.get? k ≠ some (.label l) := by
  induction lines with
  | nil => intro k; simp
  | cons line rest ih =>
    intro k
    cases line with
    | label l' =>
      by_cases hl : l' = l
      · subst hl; simp [findLabel] at h
      · simp [findLabel, hl, Option.map_eq_none'] at h
        cases k with
        | zero => simp [Line.label.injEq]; exact hl
        | succ k' => exact ih h k'
    | instr i =>
      simp [findLabel, Option.map_eq_none'] at h
      cases k with
      | zero => simp
      | succ k' => exact ih h k'

/-- Updating a block's slots is visible to a subsequent block search. -/
lemma findBlock_updateBlock (blocks : List (Nat × List (Option Value))) (b : Nat)
    (g : List (Option Value) → List (Option Value)) (slots : List (Option Value))
    (h : findBlock blocks b = some slots) :
    findBlock (updateBlock blocks b g) b = some (g slots) := by
  induction blocks with
  | nil => simp [findBlock] at h
  | cons e rest ih =>
    obtain ⟨b', s⟩ := e
    by_cases hb : b' = b
    · subst hb
      simp [findBlock] at h
      subst h
      simp [updateBlock, findBlock]
    · simp [findBlock, hb] at h
      simp [updateBlock, findBlock, hb]
      exact ih h

/-- A successful heap write found a live block, was in bounds, and produced
exactly the slot update. -/
lemma heapWrite_ok_inv (heap : Heap) (k : Key) (v : Value) (heap' : Heap)
    (hw : heapWrite heap k v = .ok heap') :
    ∃ slots, findBlock heap.blocks k.base = some slots
      ∧ 0 ≤ k.off ∧ k.off < (slots.length : Int)
      ∧ heap' = { blocks := updateBlock heap.blocks k.base (fun s => s.set k.off.toNat (some v)),
                  fresh := heap.fresh } := by
  unfold heapWrite at hw
  split at hw
  · simp at hw
  · next slots hfb =>
    split at hw
    · next hb =>
      injection hw with hw
      exact ⟨slots, hfb, hb.1, hb.2, hw.symm⟩
    · simp at hw

/-- Claim C1 is false on the code: an `and` whose first operand is false
(and an `or` whose first operand is true) succeeds even though its second
operand identifier is absent from the environment, because JS `&&`/`||`
short-circuit around the second `getBool` call — no `UndefinedVariable` is
raised. -/
theorem claim1_counterexample :
    envGet [("a", Value.bool false)] "zzz" = none
    ∧ evalInstr 1 (.and "d" ["a", "zzz"]) [("a", .bool false)] [] Heap.empty
      = .ok (.next, [("a", .bool false), ("d", .bool false)], Heap.empty, [])
    ∧ evalInstr 1 (.or "d" ["t", "zzz"]) [("t", .bool true)] [] Heap.empty
      = .ok (.next, [("t", .bool true), ("d", .bool true)], Heap.empty, []) :=
  ⟨rfl, rfl, rfl⟩

/-- Claim C1, amended: for `and` and `or` the first operand is resolved and
type-checked as a boolean eagerly — `UndefinedVariable` when it is absent,
`TypeMismatch` (a `BriliError` naming the opcode and argument index 0) when
it is bound to a non-boolean value; the second operand is resolved and
type-checked only when the first does not already decide the result — an
`and` whose first operand is false binds the destination to false, and an
`or` whose first operand is true binds it to true, regardless of the second
operand identifier. -/
theorem claim1_and_or_short_circuit (fuel : Nat)
    (d a0 a1 b0 b1 c0 c1 e0 e1 : String)
    (env : Env) (funcs : List Func) (heap : Heap) (v0 : Value)
    (h1 : envGet env a0 = some (Value.bool false))
    (h2 : envGet env b0 = some (Value.bool true))
    (h3 : envGet env c0 = none)
    (h4 : envGet env e0 = some v0)
    (hv0 : ∀ b, v0 ≠ Value.bool b) :
    evalInstr fuel (.and d [a0, a1]) env funcs heap
      = .ok (.next, envSet env d (.bool false), heap, [])
    ∧ evalInstr fuel (.or d [b0, b1]) env funcs heap
      = .ok (.next, envSet env d (.bool true), heap, [])
    ∧ evalInstr fuel (.and d [c0, c1]) env funcs heap
      = .error (.undefinedVariable c0)
    ∧ evalInstr fuel (.or d [c0, c1]) env funcs heap
      = .error (.undefinedVariable c0)
    ∧ evalInstr fuel (.and d [e0, e1]) env funcs heap
      = .error (.argTypeMismatch "and" 0)
    ∧ evalInstr fuel (.or d [e0, e1]) env funcs heap
      = .error (.argTypeMismatch "or" 0)
    ∧ isBriliError (.undefinedVariable c0) = true
    ∧ isBriliError (.argTypeMismatch "and" 0) = true := by
  refine ⟨?_, ?_, ?_, ?_, ?_, ?_, rfl, rfl⟩
  · simp [evalInstr, evalInstrCore, arityCheck, argCount, instrArgs, opName,
      getBool, getArgument, get, argAt, dynOf, typeofVal, h1]
  · simp [evalInstr, evalInstrCore, arityCheck, argCount, instrArgs, opName,
      getBool, getArgument, get, argAt, dynOf, typeofVal, h2]
  · simp [evalInstr, evalInstrCore, arityCheck, argCount, instrArgs, opName,
      getBool, getArgument, get, argAt, dynOf, typeofVal, h3]
  · simp [evalInstr, evalInstrCore, arityCheck, argCount, instrArgs, opName,
      getBool, getArgument, get, argAt, dynOf, typeofVal, h3]
  · cases v0 with
    | bool b => exact absurd rfl (hv0 b)
    | int n =>
      simp [evalInstr, evalInstrCore, arityCheck, argCount, instrArgs, opName,
        getBool, getArgument, get, argAt, dynOf, typeofVal, h4]
    | ptr p =>
      simp [evalInstr, evalInstrCore, arityCheck, argCount, instrArgs, opName,
        getBool, getArgument, get, argAt, dynOf, typeofVal, h4]
  · cases v0 with
    | bool b => exact absurd rfl (hv0 b)
    | int n =>
      simp [evalInstr, evalInstrCore, arityCheck, argCount, instrArgs, opName,
        getBool, getArgument, get, argAt, dynOf, typeofVal, h4]
    | ptr p =>
      simp [evalInstr, evalInstrCore, arityCheck, argCount, instrArgs, opName,
        getBool, getArgument, get, argAt, dynOf, typeofVal, h4]

/-- Witness for the amended claim C1 at a concrete environment. -/
theorem claim1_witness :
    evalInstr 1 (.and "d" ["a", "z"])
      [("a", .bool false), ("b", .bool true), ("n", .int 3)] [] Heap.empty
      = .ok (.next,
          [("a", .bool false), ("b", .bool true), ("n", .int 3), ("d", .bool false)],
          Heap.empty, [])
    ∧ evalInstr 1 (.or "d" ["b", "z"])
      [("a", .bool false), ("b", .bool true), ("n", .int 3)] [] Heap.empty
      = .ok (.next,
          [("a", .bool false), ("b", .bool true), ("n", .int 3), ("d", .bool true)],
          Heap.empty, [])
    ∧ evalInstr 1 (.and "d" ["c", "z"])
      [("a", .bool false), ("b", .bool true), ("n", .int 3)] [] Heap.empty
      = .error (.undefinedVariable "c")
    ∧ evalInstr 1 (.or "d" ["c", "z"])
      [("a", .bool false), ("b", .bool true), ("n", .int 3)] [] Heap.empty
      = .error (.undefinedVariable "c")
    ∧ evalInstr 1 (.and "d" ["n", "z"])
      [("a", .bool false), ("b", .bool true), ("n", .int 3)] [] Heap.empty
      = .error (.argTypeMismatch "and" 0)
    ∧ evalInstr 1 (.or "d" ["n", "z"])
      [("a", .bool false), ("b", .bool true), ("n", .int 3)] [] Heap.empty
      = .error (.argTypeMismatch "or" 0)
    ∧ isBriliError (.undefinedVariable "c") = true
    ∧ isBriliError (.argTypeMismatch "and" 0) = true :=
  claim1_and_or_short_circuit 1 "d" "a" "z" "b" "z" "c" "z" "n" "z"
    [("a", .bool false), ("b", .bool true), ("n", .int 3)] [] Heap.empty
    (.int 3) rfl rfl rfl rfl (fun _ h => Value.noConfusion h)

/-- Claim C2 is false on the code: `div` with a zero divisor does raise,
but the raised exception is the host `RangeError` of bigint division, not a
`BriliError`; the driver's catch re-throws it, so the run ends as an
unhandled engine-level crash rather than as a reportable interpreter
fault. -/
theorem claim2_counterexample :
    evalInstr 1 (.div "d" ["a", "b"]) [("a", .int 1), ("b", .int 0)] [] Heap.empty
      = .error .divideByZero
    ∧ isBriliError .divideByZero = false :=
  ⟨rfl, rfl⟩

/-- Claim C2, amended: `div` on two bound integers raises the host
`RangeError` of bigint division (not a reportable `BriliError` — the run
aborts like an engine defect) when the divisor is 0, and otherwise binds
the destination to the toward-zero truncating quotient (for nonnegative
operands, the ordinary integer quotient). -/
theorem claim2_div_semantics (fuel : Nat) (d a0 a1 : String) (env : Env)
    (funcs : List Func) (heap : Heap) (x y : Int)
    (hx : envGet env a0 = some (Value.int x))
    (hy : envGet env a1 = some (Value.int y)) :
    evalInstr fuel (.div d [a0, a1]) env funcs heap
      = (if y = 0 then .error .divideByZero
         else .ok (.next, envSet env d (.int (Int.tdiv x y)), heap, []))
    ∧ isBriliError .divideByZero = false := by
  constructor
  · by_cases h0 : a0 = a1
    · subst h0
      rw [hx] at hy
      simp only [Option.some.injEq, Value.int.injEq] at hy
      subst hy
      simp [evalInstr, evalInstrCore, arityCheck, argCount, instrArgs, opName,
        getInt, getArgument, get, argAt, dynOf, typeofVal, hx]
    · simp [evalInstr, evalInstrCore, arityCheck, argCount, instrArgs, opName,
        getInt, getArgument, get, argAt, dynOf, typeofVal, hx, hy]
  · rfl

/-- Witness for the amended claim C2: division of 7 by 2 truncates to 3. -/
theorem claim2_witness :
    evalInstr 1 (.div "d" ["a", "b"]) [("a", .int 7), ("b", .int 2)] [] Heap.empty
      = .ok (.next, [("a", .int 7), ("b", .int 2), ("d", .int 3)], Heap.empty, [])
    ∧ isBriliError .divideByZero = false :=
  claim2_div_semantics 1 "d" "a" "b" [("a", .int 7), ("b", .int 2)] [] Heap.empty 7 2 rfl rfl

/-- Claim C3: a `call` whose argument count differs from the callee's
declared parameter count, or whose argument values (resolving from the
first) hit a declared-type mismatch, raises the corresponding `BriliError`
for every fuel value — including fuel 0, at which entering the callee could
only produce `outOfFuel` — so the error is raised before any instruction of
the callee executes and no callee effect occurs. -/
theorem claim3_call_checks_before_callee (name : String) (cargs : List String)
    (dest : Option String) (ty : Option BrilType) (env : Env)
    (funcs : List Func) (heap : Heap) (func : Func)
    (hf : findFunc name funcs = .ok func)
    (hbad : func.args.length ≠ cargs.length ∨
            bindArgs func.args cargs env [] = .error Err.callArgTypeMismatch) :
    ∀ fuel, evalCall fuel name cargs dest ty env funcs heap
      = .error (if func.args.length ≠ cargs.length
                then Err.callArityMismatch func.args.length cargs.length
                else Err.callArgTypeMismatch) := by
  intro fuel
  unfold evalCall evalCallCore
  rw [hf]
  by_cases h : func.args.length = cargs.length
  · rcases hbad with hb | hb
    · exact absurd h hb
    · simp [h, hb]
  · simp [h]

/-- Witness for claim C3: an arity mismatch at fuel 0, and a parameter-type
mismatch at fuel 0 — the callee is never entered. -/
theorem claim3_witness :
    evalCall 0 "g" [] none none []
      [⟨"g", [⟨"x", BrilType.int⟩], none, []⟩] Heap.empty
      = .error (.callArityMismatch 1 0)
    ∧ evalCall 0 "g" ["b"] none none [("b", .bool true)]
      [⟨"g", [⟨"x", BrilType.int⟩], none, []⟩] Heap.empty
      = .error .callArgTypeMismatch :=
  ⟨claim3_call_checks_before_callee "g" [] none none []
      [⟨"g", [⟨"x", BrilType.int⟩], none, []⟩] Heap.empty
      ⟨"g", [⟨"x", BrilType.int⟩], none, []⟩ rfl (Or.inl (by decide)) 0,
   claim3_call_checks_before_callee "g" ["b"] none none [("b", .bool true)]
      [⟨"g", [⟨"x", BrilType.int⟩], none, []⟩] Heap.empty
      ⟨"g", [⟨"x", BrilType.int⟩], none, []⟩ rfl (Or.inr rfl) 0⟩

/-- Claim C4: a `call` carrying both a destination and a declared type,
once the callee has been resolved, arity- and type-checked, and run,
reconciles as follows — no returned value raises the missing-return-value
error, a returned value whose dynamic type disagrees with the call site's
declared type raises the destination-type mismatch, a callee whose own
declared return type differs from the call site's declared type raises the
declaration mismatch, and otherwise the value is bound under the
destination name in the caller's environment. -/
theorem claim4_call_return_reconciliation (fuel : Nat) (name d : String)
    (cargs : List String) (t : BrilType) (env newEnv : Env)
    (funcs : List Func) (heap heap' : Heap) (func : Func)
    (rv : Option Value) (out : List String)
    (hf : findFunc name funcs = .ok func)
    (harity : func.args.length = cargs.length)
    (hbind : bindArgs func.args cargs env [] = .ok newEnv)
    (hrun : evalFuncAt fuel func funcs 0 newEnv heap = .ok (rv, heap', out)) :
    evalCall fuel name cargs (some d) (some t) env funcs heap
      = match rv with
        | none => .error Err.nonVoidNoReturn
        | some v =>
          if dynOf t ≠ some (typeofVal v) then .error Err.returnValueTypeMismatch
          else if func.type ≠ some t then .error Err.returnDeclMismatch
          else .ok (.next, envSet env d v, heap', out) := by
  unfold evalCall evalCallCore
  rw [hf]
  simp [harity, hbind, hrun]
  cases rv <;> rfl

/-- Witness for claim C4: a callee returning the integer 5 with matching
declared types binds the caller's destination. -/
theorem claim4_witness :
    evalCall 3 "f" [] (some "d") (some .int) []
      [⟨"f", [], some .int, [.instr (.const "r" (.num 5)), .instr (.ret ["r"])]⟩]
      Heap.empty
      = .ok (.next, [("d", .int 5)], Heap.empty, []) :=
  claim4_call_return_reconciliation 3 "f" "d" [] .int [] []
    [⟨"f", [], some .int, [.instr (.const "r" (.num 5)), .instr (.ret ["r"])]⟩]
    Heap.empty Heap.empty
    ⟨"f", [], some .int, [.instr (.const "r" (.num 5)), .instr (.ret ["r"])]⟩
    (some (.int 5)) [] rfl rfl rfl rfl

/-- Claim C5 is false on the classification it asserts: the leak check does
fire at program end — here, for a `main` that allocates one slot and never
frees it, with every instruction succeeding — but the thrown value is a
bare string, not a `BriliError`, so the driver's catch re-throws it and the
run aborts as an unhandled engine-level crash rather than as a reportable
classified program error. -/
theorem claim5_counterexample :
    evalProg 3
      ⟨[⟨"main", [], none,
         [.instr (.const "n" (.num 1)), .instr (.alloc "p" ["n"] (.pointer .int))]⟩]⟩
      [] = .error Err.leak
    ∧ isBriliError Err.leak = false :=
  ⟨rfl, rfl⟩

/-- Claim C5, amended: when `main` has been resolved, its parameters bound,
and its body run to a normal return, the driver ends the program with the
leak error exactly when live blocks remain on the heap — even if every
executed instruction succeeded — and completes normally (yielding the
printed lines) when the heap is empty; the leak error is a bare-string
throw that the driver does not classify as a reportable `BriliError`, so
the run aborts as an engine-level failure. -/
theorem claim5_leak_check (fuel : Nat) (prog : Program) (argv : List String)
    (mainFn : Func) (env : Env) (rv : Option Value) (heap' : Heap)
    (out : List String)
    (hfind : findFunc "main" prog.functions = .ok mainFn)
    (hparse : parseMainArguments mainFn.args argv = .ok env)
    (hrun : evalFuncInEnv fuel mainFn prog.functions env Heap.empty
              = .ok (rv, heap', out)) :
    (evalProg fuel prog argv
      = if heapIsEmpty heap' then .ok out else .error Err.leak)
    ∧ isBriliError Err.leak = false := by
  constructor
  · simp [evalProg, hfind, hparse, hrun]
  · rfl

/-- Witness for the amended claim C5: a `main` that allocates one slot and
never frees it ends in the (unclassified) leak error although every
instruction succeeded. -/
theorem claim5_witness :
    evalProg 3
      ⟨[⟨"main", [], none,
         [.instr (.const "n" (.num 1)), .instr (.alloc "p" ["n"] (.pointer .int))]⟩]⟩
      [] = .error Err.leak
    ∧ isBriliError Err.leak = false :=
  claim5_leak_check 3
    ⟨[⟨"main", [], none,
       [.instr (.const "n" (.num 1)), .instr (.alloc "p" ["n"] (.pointer .int))]⟩]⟩
    []
    ⟨"main", [], none,
     [.instr (.const "n" (.num 1)), .instr (.alloc "p" ["n"] (.pointer .int))]⟩
    [] none ⟨[(0, [none])], 1⟩ [] rfl rfl rfl

/-- Claim C6: when the instruction at the program counter yields a jump
action, the function interpreter continues right after the index found by
scanning the instruction list from the start — an index that is the first
line carrying the label, and whose absence raises the label-not-found error
— and a counter at or past the end of the list is an implicit return of no
value. -/
theorem claim6_label_resolution (fuel : Nat) (func : Func) (funcs : List Func)
    (pc : Nat) (env env' : Env) (heap heap' : Heap) (instr : Instr)
    (l : String) (out : List String)
    (hline : func.instrs.get? pc = some (.instr instr))
    (hstep : evalInstr fuel instr env funcs heap = .ok (.label l, env', heap', out)) :
    (evalFuncAt (fuel + 1) func funcs pc env heap
      = match findLabel func.instrs l with
        | some j => withOut out (evalFuncAt fuel func funcs (j + 1) env' heap')
        | none => .error (.labelNotFound l))
    ∧ (∀ j, findLabel func.instrs l = some j →
        func.instrs.get? j = some (.label l)
        ∧ ∀ k, k < j → func.instrs.get? k ≠ some (.label l))
    ∧ (findLabel func.instrs l = none →
        ∀ k, func.instrs.get? k ≠ some (.label l))
    ∧ (∀ pc', func.instrs.length ≤ pc' →
        evalFuncAt (fuel + 1) func funcs pc' env heap = .ok (none, heap, [])) := by
  refine ⟨?_, findLabel_first func.instrs l, findLabel_not_found func.instrs l, ?_⟩
  · unfold evalInstr at hstep
    conv_lhs => rw [evalFuncAt]
    rw [hline]
    simp only [hstep]
  · intro pc' hlen
    have hnone : func.instrs.get? pc' = none := List.get?_eq_none.mpr hlen
    conv_lhs => rw [evalFuncAt]
    rw [hnone]

/-- Witness for claim C6: a `jmp` to a label two lines down lands after the
label line and the following `ret` ends the function. -/
theorem claim6_witness :
    evalFuncAt 2
      ⟨"j", [], none, [.instr (.jmp ["L"]), .label "L", .instr (.ret [])]⟩
      [] 0 [] Heap.empty
      = .ok (none, Heap.empty, []) :=
  (claim6_label_resolution 1
    ⟨"j", [], none, [.instr (.jmp ["L"]), .label "L", .instr (.ret [])]⟩
    [] 0 [] [] Heap.empty Heap.empty (.jmp ["L"]) "L" [] rfl rfl).1

/-- Claim C7 is false on the error it names: a `store` through a
ptr-element pointer whose value operand is a (mismatched) integer raises
`getPtr`'s bare-string not-a-Pointer error — a different, unclassified
throw (not a `BriliError`), not the TypeMismatch the claim asserts for
every mismatched store. -/
theorem claim7_counterexample :
    evalInstr 1 (.store ["p", "n"])
      [("p", .ptr ⟨⟨0, 0⟩, .ptr⟩), ("n", .int 7)] [] ⟨[(0, [none])], 1⟩
      = .error (.notAPointer "store" 1)
    ∧ isBriliError (.notAPointer "store" 1) = false :=
  ⟨rfl, rfl⟩

/-- Claim C7, amended: for every `store`, the value operand is checked
against the target pointer's element type before the heap write — through
an int- or bool-element pointer a mismatched value raises the `BriliError`
TypeMismatch naming the opcode and argument index, while through a
ptr-element pointer a non-pointer value raises `getPtr`'s bare-string
not-a-Pointer error (unclassified); in every mismatch case the result is
the same error for every heap, so the heap slot is unchanged. On a match
the checked value is written through, and the heap layer itself does not
type-check writes: a successfully written slot reads back exactly the
written value, and a heap that accepts one value at a key accepts any
other value there too. -/
theorem claim7_store_type_check (fuel : Nat) (a0 a1 : String) (env : Env)
    (funcs : List Func) (ptr : Pointer)
    (hp : envGet env a0 = some (Value.ptr ptr)) :
    (ptr.type = PrimType.int →
       ∀ heap v, envGet env a1 = some v → (∀ n, v ≠ Value.int n) →
       evalInstr fuel (.store [a0, a1]) env funcs heap
         = .error (.argTypeMismatch "store" 1))
    ∧ (ptr.type = PrimType.bool →
       ∀ heap v, envGet env a1 = some v → (∀ b, v ≠ Value.bool b) →
       evalInstr fuel (.store [a0, a1]) env funcs heap
         = .error (.argTypeMismatch "store" 1))
    ∧ (ptr.type = PrimType.ptr →
       ∀ heap v, envGet env a1 = some v → (∀ q, v ≠ Value.ptr q) →
       evalInstr fuel (.store [a0, a1]) env funcs heap
         = .error (.notAPointer "store" 1))
    ∧ isBriliError (.argTypeMismatch "store" 1) = true
    ∧ isBriliError (.notAPointer "store" 1) = false
    ∧ (ptr.type = PrimType.int →
       ∀ heap n heap', envGet env a1 = some (Value.int n) →
         heapWrite heap ptr.loc (Value.int n) = .ok heap' →
         evalInstr fuel (.store [a0, a1]) env funcs heap
           = .ok (.next, env, heap', []))
    ∧ (ptr.type = PrimType.bool →
       ∀ heap b heap', envGet env a1 = some (Value.bool b) →
         heapWrite heap ptr.loc (Value.bool b) = .ok heap' →
         evalInstr fuel (.store [a0, a1]) env funcs heap
           = .ok (.next, env, heap', []))
    ∧ (ptr.type = PrimType.ptr →
       ∀ heap q heap', envGet env a1 = some (Value.ptr q) →
         heapWrite heap ptr.loc (Value.ptr q) = .ok heap' →
         evalInstr fuel (.store [a0, a1]) env funcs heap
           = .ok (.next, env, heap', []))
    ∧ (∀ heap k v heap', heapWrite heap k v = .ok heap' → heapRead heap' k = .ok v)
    ∧ (∀ heap k v heap', heapWrite heap k v = .ok heap' →
         ∀ v', ∃ heap'', heapWrite heap k v' = .ok heap'') := by
  refine ⟨?_, ?_, ?_, rfl, rfl, ?_, ?_, ?_, ?_, ?_⟩
  · intro hty heap v hv hvn
    cases v with
    | int n => exact absurd rfl (hvn n)
    | bool b =>
      simp [evalInstr, evalInstrCore, arityCheck, argCount, instrArgs, opName,
        getPtr, getInt, getArgument, get, argAt, dynOf, typeofVal, hp, hty, hv]
    | ptr q =>
      simp [evalInstr, evalInstrCore, arityCheck, argCount, instrArgs, opName,
        getPtr, getInt, getArgument, get, argAt, dynOf, typeofVal, hp, hty, hv]
  · intro hty heap v hv hvn
    cases v with
    | bool b => exact absurd rfl (hvn b)
    | int n =>
      simp [evalInstr, evalInstrCore, arityCheck, argCount, instrArgs, opName,
        getPtr, getBool, getArgument, get, argAt, dynOf, typeofVal, hp, hty, hv]
    | ptr q =>
      simp [evalInstr, evalInstrCore, arityCheck, argCount, instrArgs, opName,
        getPtr, getBool, getArgument, get, argAt, dynOf, typeofVal, hp, hty, hv]
  · intro hty heap v hv hvn
    cases v with
    | ptr q => exact absurd rfl (hvn q)
    | int n =>
      simp [evalInstr, evalInstrCore, arityCheck, argCount, instrArgs, opName,
        getPtr, getArgument, get, argAt, dynOf, typeofVal, hp, hty, hv]
    | bool b =>
      simp [evalInstr, evalInstrCore, arityCheck, argCount, instrArgs, opName,
        getPtr, getArgument, get, argAt, dynOf, typeofVal, hp, hty, hv]
  · intro hty heap n heap' hv hw
    simp [evalInstr, evalInstrCore, arityCheck, argCount, instrArgs, opName,
      getPtr, getInt, getArgument, get, argAt, dynOf, typeofVal, hp, hty, hv, hw]
  · intro hty heap b heap' hv hw
    simp [evalInstr, evalInstrCore, arityCheck, argCount, instrArgs, opName,
      getPtr, getBool, getArgument, get, argAt, dynOf, typeofVal, hp, hty, hv, hw]
  · intro hty heap q heap' hv hw
    simp [evalInstr, evalInstrCore, arityCheck, argCount, instrArgs, opName,
      getPtr, getArgument, get, argAt, dynOf, typeofVal, hp, hty, hv, hw]
  · intro heap k v heap' hw
    obtain ⟨slots, hfb, h0, hlt, rfl⟩ := heapWrite_ok_inv heap k v heap' hw
    have hfb' := findBlock_updateBlock heap.blocks k.base
      (fun s => s.set k.off.toNat (some v)) slots hfb
    have hnat : k.off.toNat < slots.length := by omega
    have hget : (slots.set k.off.toNat (some v)).get? k.off.toNat = some (some v) :=
      List.get?_set_eq_of_lt _ hnat
    simp [heapRead, hfb', List.length_set, List.getD, hget, h0, hlt]
  · intro heap k v heap' hw v'
    obtain ⟨slots, hfb, h0, hlt, rfl⟩ := heapWrite_ok_inv heap k v heap' hw
    exact ⟨{ blocks := updateBlock heap.blocks k.base (fun s => s.set k.off.toNat (some v')),
             fresh := heap.fresh }, by simp [heapWrite, hfb, h0, hlt]⟩

/-- Witness for the amended claim C7: through an int pointer a boolean
value fails with the TypeMismatch and the integer 7 overwrites the slot;
through a bool pointer an integer fails likewise; through a ptr pointer an
integer fails with the unclassified not-a-Pointer error. -/
theorem claim7_witness :
    evalInstr 1 (.store ["p", "b"])
      [("p", .ptr ⟨⟨0, 0⟩, .int⟩), ("b", .bool true), ("n", .int 7)] []
      ⟨[(0, [none])], 1⟩
      = .error (.argTypeMismatch "store" 1)
    ∧ evalInstr 1 (.store ["q", "n"])
      [("q", .ptr ⟨⟨0, 0⟩, .bool⟩), ("b", .bool true), ("n", .int 7)] []
      ⟨[(0, [none])], 1⟩
      = .error (.argTypeMismatch "store" 1)
    ∧ evalInstr 1 (.store ["r", "n"])
      [("r", .ptr ⟨⟨0, 0⟩, .ptr⟩), ("b", .bool true), ("n", .int 7)] []
      ⟨[(0, [none])], 1⟩
      = .error (.notAPointer "store" 1)
    ∧ evalInstr 1 (.store ["p", "n"])
      [("p", .ptr ⟨⟨0, 0⟩, .int⟩), ("b", .bool true), ("n", .int 7)] []
      ⟨[(0, [none])], 1⟩
      = .ok (.next, [("p", .ptr ⟨⟨0, 0⟩, .int⟩), ("b", .bool true), ("n", .int 7)],
             ⟨[(0, [some (.int 7)])], 1⟩, []) :=
  ⟨(claim7_store_type_check 1 "p" "b"
      [("p", .ptr ⟨⟨0, 0⟩, .int⟩), ("b", .bool true), ("n", .int 7)] []
      ⟨⟨0, 0⟩, .int⟩ rfl).1 rfl ⟨[(0, [none])], 1⟩ (.bool true) rfl
      (fun _ h => Value.noConfusion h),
   (claim7_store_type_check 1 "q" "n"
      [("q", .ptr ⟨⟨0, 0⟩, .bool⟩), ("b", .bool true), ("n", .int 7)] []
      ⟨⟨0, 0⟩, .bool⟩ rfl).2.1 rfl ⟨[(0, [none])], 1⟩ (.int 7) rfl
      (fun _ h => Value.noConfusion h),
   (claim7_store_type_check 1 "r" "n"
      [("r", .ptr ⟨⟨0, 0⟩, .ptr⟩), ("b", .bool true), ("n", .int 7)] []
      ⟨⟨0, 0⟩, .ptr⟩ rfl).2.2.1 rfl ⟨[(0, [none])], 1⟩ (.int 7) rfl
      (fun _ h => Value.noConfusion h),
   (claim7_store_type_check 1 "p" "n"
      [("p", .ptr ⟨⟨0, 0⟩, .int⟩), ("b", .bool true), ("n", .int 7)] []
      ⟨⟨0, 0⟩, .int⟩ rfl).2.2.2.2.2.1 rfl ⟨[(0, [none])], 1⟩ 7
      ⟨[(0, [some (.int 7)])], 1⟩ rfl rfl⟩

/-- Claim C10: a program with no function named `main` makes the driver
fail with the function-lookup error for every fuel value — before anything
executes and with no output, so the source's warning branch can print
nothing; the lookup never yields a null-like result (a successful lookup
returns an actual function of that name from the table), and a duplicated
name makes the lookup throw as well. -/
theorem claim10_main_lookup (prog : Program) (argv : List String)
    (hnone : ∀ f ∈ prog.functions, f.name ≠ "main") :
    (∀ fuel, evalProg fuel prog argv = .error (.noFunc "main"))
    ∧ isBriliError (.noFunc "main") = true
    ∧ (∀ (name : String) (funcs : List Func) (f : Func),
         findFunc name funcs = .ok f → f ∈ funcs ∧ f.name = name)
    ∧ (∀ (name : String) (funcs : List Func),
         1 < (funcs.filter (fun f => f.name = name)).length →
         findFunc name funcs = .error (.multiFunc name)) := by
  refine ⟨?_, rfl, ?_, ?_⟩
  · intro fuel
    have hfilter : prog.functions.filter (fun f => f.name = "main") = [] := by
      rw [List.filter_eq_nil_iff]
      intro f hf
      simp [hnone f hf]
    simp [evalProg, findFunc, hfilter]
  · intro name funcs f hf
    unfold findFunc at hf
    cases hm : funcs.filter (fun g => g.name = name) with
    | nil => rw [hm] at hf; cases hf
    | cons g rest =>
      cases rest with
      | nil =>
        rw [hm] at hf
        have he : g = f := by injection hf
        subst he
        have hg : g ∈ funcs.filter (fun g' => g'.name = name) := by rw [hm]; simp
        have h2 := List.mem_filter.mp hg
        exact ⟨h2.1, by simpa using h2.2⟩
      | cons g' rest' => rw [hm] at hf; cases hf
  · intro name funcs hlen
    unfold findFunc
    cases hm : funcs.filter (fun g => g.name = name) with
    | nil => rw [hm] at hlen; simp at hlen
    | cons g rest =>
      cases rest with
      | nil => rw [hm] at hlen; simp at hlen
      | cons g' rest' => rfl

/-- Witness for claim C10: an empty program fails the `main` lookup at fuel
0, and a duplicated function name makes the lookup throw. -/
theorem claim10_witness :
    evalProg 0 ⟨[]⟩ [] = .error (.noFunc "main")
    ∧ findFunc "g" [⟨"g", [], none, []⟩, ⟨"g", [], none, []⟩]
      = .error (.multiFunc "g") :=
  ⟨(claim10_main_lookup ⟨[]⟩ [] (by simp)).1 0,
   (claim10_main_lookup ⟨[]⟩ [] (by simp)).2.2.2 "g"
     [⟨"g", [], none, []⟩, ⟨"g", [], none, []⟩] (by decide)⟩

end Brili
